import Mathlib

/-! blockscout-error-indexer: the classification pipeline of `main.go`

A shallow embedding of `indexTransactions`, `updateTx` and `sanitizeForSql`.

* A Go `string` is its byte sequence (`GoString`), because `resp.Output[2:]`,
  `strings.HasPrefix` and `hex.DecodeString` work on bytes.
* `sanitizeForSql` works on the rune sequence that `range` yields for its
  argument, so its text is a `List Char` (a `Char` is a Unicode scalar value,
  which is what `range` yields, `utf8.RuneError` included).
* One pass of the loop body is the list of calls it makes (`Event`) together
  with a flag telling whether it ended in a runtime panic.
* `unicode.IsPrint`, the RPC client, the SQL generator of goqu and (where a
  claim is not about it) the revert decoder are parameters.
-/

namespace ErrorIndexer

/-! ## Go strings and the standard-library functions used by `main.go` -/

deriving instance DecidableEq for Except

/-- A Go string: a sequence of bytes. -/
abbrev GoString := List Nat

/-- Bytes of a string literal of the program; these literals are ASCII, one byte per character. -/
def lit (s : String) : GoString := s.data.map Char.toNat

/-- Go `strings.HasPrefix(s, pre)`. -/
def hasPrefix (s pre : GoString) : Bool := pre.isPrefixOf s

/-- Go `strings.Replace(s, old, new, 1)` for a one-byte `old`: the first occurrence is replaced. -/
def replaceFirst (old : Nat) (new : GoString) : GoString → GoString
  | [] => []
  | b :: rest => if b = old then new ++ rest else b :: replaceFirst old new rest

/-- Value of one hexadecimal digit (Go `encoding/hex`, `reverseHexTable`), both cases accepted. -/
def fromHexChar (c : Nat) : Option Nat :=
  if 48 ≤ c ∧ c ≤ 57 then some (c - 48)
  else if 97 ≤ c ∧ c ≤ 102 then some (c - 97 + 10)
  else if 65 ≤ c ∧ c ≤ 70 then some (c - 65 + 10)
  else none

/-- Go `hex.DecodeString`: pairs of digits become bytes; an invalid digit or an odd length is an error. -/
def hexDecodeString : GoString → Except String (List Nat)
  | [] => .ok []
  | [c] =>
    match fromHexChar c with
    | none => .error "encoding/hex: invalid byte"
    | some _ => .error "encoding/hex: odd length hex string"
  | p :: q :: rest =>
    match fromHexChar p with
    | none => .error "encoding/hex: invalid byte"
    | some a =>
      match fromHexChar q with
      | none => .error "encoding/hex: invalid byte"
      | some b =>
        match hexDecodeString rest with
        | .error e => .error e
        | .ok bytes => .ok (((a * 16 + b) % 256) :: bytes)

/-- Digit of Go's `hextable = "0123456789abcdef"`. -/
def hexDigit (n : Nat) : Nat := if n < 10 then 48 + n else 87 + n

/-- Go `hex.EncodeToString`: two lower-case digits per byte. -/
def hexEncodeToString : List Nat → GoString
  | [] => []
  | b :: rest => hexDigit ((b % 256) / 16) :: hexDigit (b % 16) :: hexEncodeToString rest

/-! ## The data of `main.go` -/

/-- The struct `Result` decoded from the reply of `debug_traceTransaction`. -/
structure Result where
  Error : GoString
  Output : GoString
  deriving DecidableEq, Repr

/-- A `goqu.Record`: column name and value, in the order the source writes them. -/
abbrev Record := List (String × GoString)

/-- The calls made by the loop body that the claims speak about. -/
inductive Event where
  | unpackRevert (data : List Nat)
  | updateTx (txHash : GoString) (record : Record)
  | wait
  deriving DecidableEq, Repr

/-- What a piece of the loop did: the calls it made, and whether it ended in a runtime panic. -/
structure Outcome where
  events : List Event
  panicked : Bool
  deriving DecidableEq, Repr

/-- The body of `for _, txHash := range hashes` in `indexTransactions` (lines 119 to 143).
`client` is `client.Call(&resp, "debug_traceTransaction", _)`, with its error or the filled
`resp`; `unpackRevert` is `abi.UnpackRevert`. The slice `resp.Output[2:]` panics when
`resp.Output` has fewer than two bytes. -/
def processTx (unpackRevert : List Nat → Except String GoString)
    (client : GoString → Except String Result) (txHash : GoString) : Outcome :=
  match client (replaceFirst 92 (lit "0") txHash) with
  | .error _ => { events := [.updateTx txHash [("error", lit "Unknown")]], panicked := false }
  | .ok resp =>
    if resp.Output.length < 2 then { events := [], panicked := true }
    else
      match hexDecodeString (resp.Output.drop 2) with
      | .error _ => { events := [.updateTx txHash [("error", lit "Unknown")]], panicked := false }
      | .ok hexdata =>
        if hasPrefix resp.Error (lit "Revert") then
          match unpackRevert hexdata with
          | .error _ =>
            { events := [.unpackRevert hexdata,
                .updateTx txHash [("error", lit "Reverted"), ("revert_reason", lit "Unknown")]],
              panicked := false }
          | .ok revertReason =>
            { events := [.unpackRevert hexdata,
                .updateTx txHash [("error", lit "Reverted"), ("revert_reason", revertReason)]],
              panicked := false }
        else { events := [.updateTx txHash [("error", resp.Error)]], panicked := false }

/-- The loop `for _, txHash := range hashes`: the bodies run in order; a panic ends the process,
so the hashes after it are not processed. -/
def processBatch (unpackRevert : List Nat → Except String GoString)
    (client : GoString → Except String Result) : List GoString → Outcome
  | [] => { events := [], panicked := false }
  | txHash :: rest =>
    let first := processTx unpackRevert client txHash
    if first.panicked then first
    else
      let others := processBatch unpackRevert client rest
      { events := first.events ++ others.events, panicked := others.panicked }

/-- The records handed to `updateTx` during an outcome. -/
def recordsWritten (o : Outcome) : List Record :=
  o.events.filterMap fun e =>
    match e with
    | .updateTx _ record => some record
    | _ => none

/-- The payloads handed to `abi.UnpackRevert` during an outcome. -/
def decoderCalls (o : Outcome) : List (List Nat) :=
  o.events.filterMap fun e =>
    match e with
    | .unpackRevert data => some data
    | _ => none

/-! ## The `transactions` table and the fetch of `indexTransactions` -/

/-- A row of the table `transactions`: the columns the program reads and writes (`hash`, already
in its `::varchar` form, `status`, `error`, `revert_reason`) and the block of the transaction. -/
structure TransactionRow where
  hash : GoString
  block_number : Nat
  status : Int
  error : Option GoString
  revert_reason : Option GoString
  deriving DecidableEq, Repr

/-- The condition `WHERE status = 0 AND error IS NULL`. -/
def eligible (row : TransactionRow) : Bool := row.status == 0 && row.error.isNone

/-- Result rows of `SELECT array_agg(hash::varchar) as hashes FROM transactions WHERE status = 0
AND error IS NULL LIMIT 1000`: the rows are filtered by `WHERE`, `array_agg` without `GROUP BY`
aggregates them into one result row (NULL when no row matches), and `LIMIT 1000` then bounds the
number of result rows. -/
def queryRows (table : List TransactionRow) : List (Option (List GoString)) :=
  let matching := table.filter eligible
  let aggregated := [if matching.isEmpty then none else some (matching.map (·.hash))]
  aggregated.take 1000

/-- The call `QueryRow(...).Scan(&hashes)`: the first result row is scanned into `hashes`, which
was made empty before; NULL leaves it empty. -/
def scanHashes : List (Option (List GoString)) → Except String (List GoString)
  | [] => .error "no rows in result set"
  | none :: _ => .ok []
  | some hashes :: _ => .ok hashes

/-- One turn of the loop `for` of `indexTransactions`: the batch it fetched and what it did. -/
structure Turn where
  hashes : List GoString
  outcome : Outcome
  deriving DecidableEq, Repr

/-- One turn of the endless loop of `indexTransactions(pgpool, client, fromBlock, toBlock)`
(lines 104 to 145) on a state `table` of the database. -/
def indexTransactions (unpackRevert : List Nat → Except String GoString)
    (client : GoString → Except String Result) (fromBlock toBlock : Nat)
    (table : List TransactionRow) : Turn :=
  match scanHashes (queryRows table) with
  | .error _ => { hashes := [], outcome := { events := [], panicked := false } }
  | .ok hashes =>
    if hashes.length = 0 then
      { hashes := hashes, outcome := { events := [.wait], panicked := false } }
    else { hashes := hashes, outcome := processBatch unpackRevert client hashes }

/-- A table of `n` pending transactions with distinct hashes, one per block. -/
def pendingTable (n : Nat) : List TransactionRow :=
  (List.range n).map fun i =>
    { hash := lit "\\x" ++ hexEncodeToString [i / 256, i % 256], block_number := i, status := 0,
      error := none, revert_reason := none }

/-! ## `sanitizeForSql` and `updateTx` -/

/-- Go `(*strings.Builder).WriteRune`: a value that is not a Unicode scalar value is written as
`utf8.RuneError`. -/
def writeRune (r : Int) : Char :=
  if r.toNat.isValidChar then Char.ofNat r.toNat else Char.ofNat 0xFFFD

/-- Go `strings.Map(mapping, s)` on the runes of `s`: each rune is replaced by its image, and a
rune whose image is negative is dropped. -/
def stringsMap (mapping : Char → Int) (s : List Char) : List Char :=
  s.filterMap fun c =>
    let r := mapping c
    if 0 ≤ r then some (writeRune r) else none

/-- The function `sanitizeForSql` (lines 158 to 165); `isPrint` is `unicode.IsPrint`. -/
def sanitizeForSql (isPrint : Char → Bool) (text : List Char) : List Char :=
  stringsMap (fun r => if isPrint r then (r.toNat : Int) else -1) text

/-- The function `updateTx` (lines 148 to 152): the statement handed to `pgpool.Exec`. `toSQL` is
the statement that goqu generates for `UPDATE transactions SET record WHERE hash = txHash`. -/
def updateTx (isPrint : Char → Bool) (toSQL : GoString → Record → List Char)
    (txHash : GoString) (record : Record) : List Char :=
  sanitizeForSql isPrint (toSQL txHash record)

/-! ## The revert decoder -/

/-- First four bytes of the Keccak-256 hash of `Error(string)`: `08c379a0`. -/
def revertSelector : List Nat := [0x08, 0xc3, 0x79, 0xa0]

/-- Go `new(big.Int).SetBytes`: the unsigned big-endian value of a byte slice. -/
def bigEndian (bytes : List Nat) : Nat := bytes.foldl (fun acc b => acc * 256 + b) 0

/-- Modelled from the spec: `lengthPrefixPointsTo` of the package `abi` of go-ethereum, which is
not under src/. It reads the offset word at `index` and the length word the offset points to, and
fails when the length-prefix layout does not fit in the payload. -/
def lengthPrefixPointsTo (index : Nat) (output : List Nat) : Except String (Nat × Nat) :=
  let bigOffsetEnd := bigEndian ((output.drop index).take 32) + 32
  if bigOffsetEnd > output.length then .error "abi: offset would go over slice boundary"
  else if bigOffsetEnd ≥ 2 ^ 63 then .error "abi offset larger than int64"
  else
    let lengthBig := bigEndian ((output.drop (bigOffsetEnd - 32)).take 32)
    let totalSize := bigOffsetEnd + lengthBig
    if totalSize ≥ 2 ^ 63 then .error "abi: length larger than int64"
    else if totalSize > output.length then .error "abi: length insufficient"
    else .ok (bigOffsetEnd, lengthBig)

/-- Modelled from the spec: decoding of one ABI-encoded string, `(Arguments{{Type: string}}).Unpack`
of go-ethereum, which is not under src/. An empty or too short payload is a failure. -/
def unpackString (data : List Nat) : Except String GoString :=
  if data.length = 0 then .error "abi: attempting to unmarshall an empty string"
  else if 32 > data.length then .error "abi: length insufficient"
  else
    match lengthPrefixPointsTo 0 data with
    | .error e => .error e
    | .ok (start, length) => .ok ((data.drop start).take length)

/-- Modelled from the spec: the revert decoder `abi.UnpackRevert` of go-ethereum, which is not
under src/. The standard ABI `Error(string)` rule: the first 4 bytes are the fixed selector, the
remaining bytes are an ABI-encoded string; a payload that is too short or has another selector is
a decode failure. -/
def UnpackRevert (data : List Nat) : Except String GoString :=
  if data.length < 4 then .error "invalid data for unpacking"
  else if data.take 4 ≠ revertSelector then .error "invalid data for unpacking"
  else unpackString (data.drop 4)

/-- The `width` low bytes of `n`, big-endian. -/
def beBytes : Nat → Nat → List Nat
  | 0, _ => []
  | width + 1, n => beBytes width (n / 256) ++ [n % 256]

/-- The standard ABI encoding of a string as the only argument: the offset word 32, the length
word, then the bytes padded with zeros to a multiple of 32. -/
def abiEncodeString (s : GoString) : List Nat :=
  beBytes 32 32 ++ beBytes 32 s.length ++ s ++ List.replicate ((32 - s.length % 32) % 32) 0

/-- The standard ABI `Error(string)` payload of the reason `s`: selector, then the encoded string. -/
def errorStringPayload (s : GoString) : List Nat := revertSelector ++ abiEncodeString s

/-- The number that a word stands for, most significant byte first. -/
def wordValue : List Nat → Nat
  | [] => 0
  | b :: rest => b * 256 ^ rest.length + wordValue rest

/-- A payload that cannot hold an `Error(string)` layout: shorter than 4 bytes (empty included),
another selector, or a length-prefixed string that is truncated: after the selector there is no
room for the offset word, for the length word the offset points to, or for as many bytes as the
length word announces. -/
def truncatedPayload (data : List Nat) : Bool :=
  let body := data.drop 4
  let offset := wordValue (body.take 32)
  decide (data.length < 4) || decide (data.take 4 ≠ revertSelector) ||
    decide (body.length < 32) || decide (body.length < offset + 32) ||
    decide (body.length < offset + 32 + wordValue ((body.drop offset).take 32))

/-! ## Theorems -/

set_option maxRecDepth 16384

/-- C1, as stated, fails: when the RPC call for a hash returns a transport error, the loop body
does issue an update for that hash, the record `error = "Unknown"`. -/
theorem transport_failure_writes_unknown_example :
    recordsWritten (processTx UnpackRevert (fun _ => .error "connection refused") (lit "\\x01"))
        = [[("error", lit "Unknown")]] ∧
      recordsWritten (processTx UnpackRevert (fun _ => .error "connection refused") (lit "\\x01"))
        ≠ [] := by
  decide

/-- C1, amended: when the RPC call for the hash `txHash` returns an error, the loop body issues
exactly one update for `txHash`, the record `error = "Unknown"` without `revert_reason`, does not
call the revert decoder and does not panic. -/
theorem transport_failure_writes_unknown (unpackRevert : List Nat → Except String GoString)
    (client : GoString → Except String Result) (txHash : GoString) (err : String)
    (hcall : client (replaceFirst 92 (lit "0") txHash) = .error err) :
    processTx unpackRevert client txHash =
      { events := [.updateTx txHash [("error", lit "Unknown")]], panicked := false } := by
  simp [processTx, hcall]

/-- C1, amended, for a refused connection. -/
theorem transport_failure_writes_unknown_witness :
    processTx UnpackRevert (fun _ => .error "connection refused") (lit "\\x01") =
      { events := [.updateTx (lit "\\x01") [("error", lit "Unknown")]], panicked := false } :=
  transport_failure_writes_unknown UnpackRevert (fun _ => .error "connection refused")
    (lit "\\x01") "connection refused" rfl

/-- C2 fails on the code: a reply received without a call error whose output is empty, or has one
character, makes the slice `resp.Output[2:]` go out of bounds; the loop body panics before any
update is issued, and the batch is abandoned there. -/
theorem short_output_panics (unpackRevert : List Nat → Except String GoString)
    (txHash : GoString) (rest : List GoString) :
    processTx unpackRevert (fun _ => .ok ⟨lit "", lit ""⟩) txHash
        = { events := [], panicked := true } ∧
      processTx unpackRevert (fun _ => .ok ⟨lit "Reverted", lit "0"⟩) txHash
        = { events := [], panicked := true } ∧
      processBatch unpackRevert (fun _ => .ok ⟨lit "", lit ""⟩) (txHash :: rest)
        = { events := [], panicked := true } := by
  refine ⟨?_, ?_, ?_⟩ <;> simp [processBatch, processTx, lit]

/-- C3, as stated, fails: for the reply with error `Revert` and output `0xzz` (not valid hex
after the prefix) the record written is `error = "Unknown"`, not the original error text; and for
the output `zz08c379a0`, which does not begin with `0x`, the payload left after dropping the two
characters `zz` is handed to the revert decoder. -/
theorem revert_with_bad_output_example :
    recordsWritten (processTx UnpackRevert (fun _ => .ok ⟨lit "Revert", lit "0xzz"⟩) (lit "\\x01"))
        = [[("error", lit "Unknown")]] ∧
      recordsWritten (processTx UnpackRevert (fun _ => .ok ⟨lit "Revert", lit "0xzz"⟩) (lit "\\x01"))
        ≠ [[("error", lit "Revert")]] ∧
      decoderCalls
          (processTx UnpackRevert (fun _ => .ok ⟨lit "Revert", lit "zz08c379a0"⟩) (lit "\\x01"))
        = [[0x08, 0xc3, 0x79, 0xa0]] := by
  decide

/-- C3, amended: for every reply whose error begins with `Revert` and whose output has at least
two bytes and is not valid hex once its first two bytes are dropped, the only call of the loop
body is the update with the record `error = "Unknown"`; the revert decoder is not called. -/
theorem revert_with_invalid_hex (unpackRevert : List Nat → Except String GoString)
    (client : GoString → Except String Result) (txHash : GoString) (resp : Result) (err : String)
    (hcall : client (replaceFirst 92 (lit "0") txHash) = .ok resp)
    (_hrevert : hasPrefix resp.Error (lit "Revert") = true)
    (hlen : 2 ≤ resp.Output.length)
    (hhex : hexDecodeString (resp.Output.drop 2) = .error err) :
    processTx unpackRevert client txHash =
        { events := [.updateTx txHash [("error", lit "Unknown")]], panicked := false } ∧
      decoderCalls (processTx unpackRevert client txHash) = [] := by
  have hnot : ¬ resp.Output.length < 2 := by omega
  have h : processTx unpackRevert client txHash =
      { events := [.updateTx txHash [("error", lit "Unknown")]], panicked := false } := by
    simp [processTx, hcall, hnot, hhex]
  exact ⟨h, by rw [h]; rfl⟩

/-- C3, amended, for the reply with error `Revert` and output `0xzz`. -/
theorem revert_with_invalid_hex_witness :
    processTx UnpackRevert (fun _ => .ok ⟨lit "Revert", lit "0xzz"⟩) (lit "\\x01") =
        { events := [.updateTx (lit "\\x01") [("error", lit "Unknown")]], panicked := false } ∧
      decoderCalls (processTx UnpackRevert (fun _ => .ok ⟨lit "Revert", lit "0xzz"⟩) (lit "\\x01"))
        = [] :=
  revert_with_invalid_hex UnpackRevert (fun _ => .ok ⟨lit "Revert", lit "0xzz"⟩) (lit "\\x01")
    ⟨lit "Revert", lit "0xzz"⟩ "encoding/hex: invalid byte" rfl (by decide) (by decide) (by decide)

/-- C4, as stated, fails: for the reply with error `execution timeout` and output `0xzz` the
record written is `error = "Unknown"`, not the error text of the reply. -/
theorem other_error_with_bad_output_example :
    recordsWritten
        (processTx UnpackRevert (fun _ => .ok ⟨lit "execution timeout", lit "0xzz"⟩) (lit "\\x01"))
        = [[("error", lit "Unknown")]] ∧
      recordsWritten
        (processTx UnpackRevert (fun _ => .ok ⟨lit "execution timeout", lit "0xzz"⟩) (lit "\\x01"))
        ≠ [[("error", lit "execution timeout")]] := by
  decide

/-- C4, amended: for every reply whose error is non-empty and does not begin with `Revert`, and
whose output has at least two bytes and is valid hex once its first two bytes are dropped, the
only call of the loop body is the update with the record `error = ` the error text of the reply,
verbatim, without `revert_reason`. -/
theorem other_error_passthrough (unpackRevert : List Nat → Except String GoString)
    (client : GoString → Except String Result) (txHash : GoString) (resp : Result)
    (hexdata : List Nat)
    (hcall : client (replaceFirst 92 (lit "0") txHash) = .ok resp)
    (_hnonempty : resp.Error ≠ [])
    (hother : hasPrefix resp.Error (lit "Revert") = false)
    (hlen : 2 ≤ resp.Output.length)
    (hhex : hexDecodeString (resp.Output.drop 2) = .ok hexdata) :
    processTx unpackRevert client txHash =
      { events := [.updateTx txHash [("error", resp.Error)]], panicked := false } := by
  have hnot : ¬ resp.Output.length < 2 := by omega
  simp [processTx, hcall, hnot, hhex, hother]

/-- C4, amended, for the reply with error `execution timeout` and output `0x`. -/
theorem other_error_passthrough_witness :
    processTx UnpackRevert (fun _ => .ok ⟨lit "execution timeout", lit "0x"⟩) (lit "\\x01") =
      { events := [.updateTx (lit "\\x01") [("error", lit "execution timeout")]],
        panicked := false } :=
  other_error_passthrough UnpackRevert (fun _ => .ok ⟨lit "execution timeout", lit "0x"⟩)
    (lit "\\x01") ⟨lit "execution timeout", lit "0x"⟩ [] rfl (by decide) (by decide) (by decide)
    (by decide)

/-- C7: for every reply whose error does not begin with `Revert`, the loop body does not call
the revert decoder, and every record it writes is a single field `error` whose value is not
`Reverted` (so no `revert_reason`); and whatever the call returned, a record with
`error = "Reverted"` is written only when the call succeeded, the output (after its first two
bytes) hex-decoded, and the error of the reply begins with `Revert`. -/
theorem reverted_only_for_revert (unpackRevert : List Nat → Except String GoString)
    (client : GoString → Except String Result) (txHash : GoString) :
    (∀ resp, client (replaceFirst 92 (lit "0") txHash) = .ok resp →
        hasPrefix resp.Error (lit "Revert") = false →
        decoderCalls (processTx unpackRevert client txHash) = [] ∧
          ∀ record ∈ recordsWritten (processTx unpackRevert client txHash),
            ∃ value, record = [("error", value)] ∧ value ≠ lit "Reverted") ∧
      (∀ record ∈ recordsWritten (processTx unpackRevert client txHash),
        ("error", lit "Reverted") ∈ record →
        ∃ resp hexdata, client (replaceFirst 92 (lit "0") txHash) = .ok resp ∧
          2 ≤ resp.Output.length ∧
          hexDecodeString (resp.Output.drop 2) = .ok hexdata ∧
          hasPrefix resp.Error (lit "Revert") = true) := by
  have hUnknown : lit "Unknown" ≠ lit "Reverted" := by decide
  constructor
  · intro resp hcall hother
    have hne : resp.Error ≠ lit "Reverted" := by
      intro h
      rw [h] at hother
      exact absurd hother (by decide)
    unfold processTx
    rw [hcall]
    by_cases hlen : resp.Output.length < 2
    · simp [hlen, decoderCalls, recordsWritten]
    · cases hhex : hexDecodeString (resp.Output.drop 2) with
      | error e => simp [hlen, hhex, decoderCalls, recordsWritten, hUnknown]
      | ok hexdata => simp [hlen, hhex, hother, decoderCalls, recordsWritten, hne]
  · intro record hrec hmem
    unfold processTx at hrec
    cases hcall : client (replaceFirst 92 (lit "0") txHash) with
    | error e =>
      rw [hcall] at hrec
      simp [recordsWritten] at hrec
      subst hrec
      simp at hmem
      exact absurd hmem.symm hUnknown
    | ok resp =>
      rw [hcall] at hrec
      by_cases hlen : resp.Output.length < 2
      · simp [hlen, recordsWritten] at hrec
      · cases hhex : hexDecodeString (resp.Output.drop 2) with
        | error e =>
          simp [hlen, hhex, recordsWritten] at hrec
          subst hrec
          simp at hmem
          exact absurd hmem.symm hUnknown
        | ok hexdata =>
          cases hpre : hasPrefix resp.Error (lit "Revert") with
          | true => exact ⟨resp, hexdata, rfl, by omega, hhex, hpre⟩
          | false =>
            simp [hlen, hhex, hpre, recordsWritten] at hrec
            subst hrec
            simp at hmem
            rw [← hmem] at hpre
            exact absurd hpre (by decide)

/-- C7 for the reply with an empty error and output `0x`: the record written is `error = ""`. -/
theorem reverted_only_for_revert_witness :
    (decoderCalls (processTx UnpackRevert (fun _ => .ok ⟨lit "", lit "0x"⟩) (lit "\\x01")) = [] ∧
      ∀ record ∈ recordsWritten
          (processTx UnpackRevert (fun _ => .ok ⟨lit "", lit "0x"⟩) (lit "\\x01")),
        ∃ value, record = [("error", value)] ∧ value ≠ lit "Reverted") ∧
      recordsWritten (processTx UnpackRevert (fun _ => .ok ⟨lit "", lit "0x"⟩) (lit "\\x01"))
        = [[("error", lit "")]] :=
  ⟨(reverted_only_for_revert UnpackRevert (fun _ => .ok ⟨lit "", lit "0x"⟩) (lit "\\x01")).1
      ⟨lit "", lit "0x"⟩ rfl (by decide),
    by decide⟩

/-- Writing back the rune of a character gives the character. -/
theorem writeRune_toNat (c : Char) : writeRune (c.toNat : Int) = c := by
  have hvalid : c.toNat.isValidChar := c.valid
  simp [writeRune, hvalid]

/-- The function `sanitizeForSql` is the filter that keeps the printable runes. -/
theorem sanitizeForSql_eq_filter (isPrint : Char → Bool) (text : List Char) :
    sanitizeForSql isPrint text = text.filter isPrint := by
  induction text with
  | nil => rfl
  | cons c rest ih =>
    have ih' : List.filterMap
        (fun c => if 0 ≤ (if isPrint c = true then (c.toNat : Int) else -1)
          then some (writeRune (if isPrint c = true then (c.toNat : Int) else -1)) else none) rest
        = rest.filter isPrint := ih
    cases hc : isPrint c with
    | true =>
      simp only [sanitizeForSql, stringsMap, List.filterMap_cons, hc, if_true, List.filter_cons]
      have h0 : (0 : Int) ≤ (c.toNat : Int) := Int.ofNat_nonneg _
      simp only [h0, if_true, writeRune_toNat]
      rw [ih']
    | false =>
      simp only [sanitizeForSql, stringsMap, List.filterMap_cons, hc, List.filter_cons]
      have h0 : ¬ ((0 : Int) ≤ -1) := by decide
      simp only [Bool.false_eq_true, if_false, h0]
      rw [ih']

/-- C8: `sanitizeForSql` returns its text with exactly the runes that are not printable removed
and the other runes kept in order; so every rune of the statement that `updateTx` sends is
printable, a text of printable runes is returned unchanged, and sanitizing twice is the same as
sanitizing once. -/
theorem sanitizeForSql_strips_nonprintable (isPrint : Char → Bool)
    (toSQL : GoString → Record → List Char) (text : List Char) (txHash : GoString)
    (record : Record) :
    sanitizeForSql isPrint text = text.filter isPrint ∧
      (∀ c ∈ updateTx isPrint toSQL txHash record, isPrint c = true) ∧
      ((∀ c ∈ text, isPrint c = true) → sanitizeForSql isPrint text = text) ∧
      sanitizeForSql isPrint (sanitizeForSql isPrint text) = sanitizeForSql isPrint text := by
  refine ⟨sanitizeForSql_eq_filter isPrint text, ?_, ?_, ?_⟩
  · intro c hc
    rw [updateTx, sanitizeForSql_eq_filter] at hc
    exact (List.mem_filter.mp hc).2
  · intro hall
    rw [sanitizeForSql_eq_filter]
    exact List.filter_eq_self.mpr hall
  · simp only [sanitizeForSql_eq_filter, List.filter_filter, Bool.and_self]

/-- C8 on the text `a`, tab, `b`, newline, `c`, with the printable ASCII range for `isPrint`. -/
theorem sanitizeForSql_strips_nonprintable_witness :
    sanitizeForSql (fun c => decide (32 ≤ c.toNat ∧ c.toNat < 127)) "a\tb\nc".data = "abc".data ∧
      sanitizeForSql (fun c => decide (32 ≤ c.toNat ∧ c.toNat < 127)) "abc".data = "abc".data :=
  ⟨by
      rw [(sanitizeForSql_strips_nonprintable (fun c => decide (32 ≤ c.toNat ∧ c.toNat < 127))
        (fun _ _ => []) "a\tb\nc".data [] []).1]
      decide,
    (sanitizeForSql_strips_nonprintable (fun c => decide (32 ≤ c.toNat ∧ c.toNat < 127))
      (fun _ _ => []) "abc".data [] []).2.2.1 (by decide)⟩

/-- The batch fetched by one turn of `indexTransactions` is the list of the hashes of all the
eligible rows of the table, whatever the block bounds are. -/
theorem indexTransactions_hashes (unpackRevert : List Nat → Except String GoString)
    (client : GoString → Except String Result) (fromBlock toBlock : Nat)
    (table : List TransactionRow) :
    (indexTransactions unpackRevert client fromBlock toBlock table).hashes =
      (table.filter eligible).map (·.hash) := by
  unfold indexTransactions queryRows
  cases hm : table.filter eligible with
  | nil => simp [scanHashes]
  | cons row rest =>
    simp only [List.isEmpty_cons, Bool.false_eq_true, if_false, List.take, scanHashes]
    split <;> rfl

/-- C9 fails on the code: the batch fetched by `indexTransactions` is the same for every pair of
block bounds, and with `fromBlock = 100` and `toBlock = 200` it contains the hash of a pending
transaction of block 50. -/
theorem block_range_is_ignored (unpackRevert : List Nat → Except String GoString)
    (client : GoString → Except String Result) (fromBlock toBlock : Nat)
    (table : List TransactionRow) :
    (indexTransactions unpackRevert client fromBlock toBlock table).hashes =
        (indexTransactions unpackRevert client 0 0 table).hashes ∧
      (indexTransactions unpackRevert client 100 200
          [{ hash := lit "\\x01", block_number := 50, status := 0, error := none,
             revert_reason := none }]).hashes = [lit "\\x01"] := by
  constructor
  · rw [indexTransactions_hashes, indexTransactions_hashes]
  · rw [indexTransactions_hashes]
    decide

/-- C10 fails on the code: `LIMIT 1000` bounds the result rows of the query, of which there is
one, not the array built by `array_agg`; with 1001 eligible rows the fetched slice has 1001
hashes. -/
theorem batch_exceeds_limit (unpackRevert : List Nat → Except String GoString)
    (client : GoString → Except String Result) :
    (indexTransactions unpackRevert client 0 0 (pendingTable 1001)).hashes.length = 1001 := by
  have hall : (pendingTable 1001).filter eligible = pendingTable 1001 := by
    apply List.filter_eq_self.mpr
    intro row hrow
    simp only [pendingTable, List.mem_map] at hrow
    obtain ⟨i, _, rfl⟩ := hrow
    rfl
  rw [indexTransactions_hashes, hall]
  simp [pendingTable]

/-! ### The hex and ABI round trips -/

/-- A digit of the hex table is read back as its value. -/
theorem fromHexChar_hexDigit : ∀ n, n < 16 → fromHexChar (hexDigit n) = some n := by
  decide

/-- Decoding the hex of a byte sequence gives the sequence back. -/
theorem hexDecodeString_hexEncodeToString (bytes : List Nat) (hbytes : ∀ b ∈ bytes, b < 256) :
    hexDecodeString (hexEncodeToString bytes) = .ok bytes := by
  induction bytes with
  | nil => rfl
  | cons b rest ih =>
    have hb : b < 256 := hbytes b (List.mem_cons_self _ _)
    have hrest : ∀ x ∈ rest, x < 256 := fun x hx => hbytes x (List.mem_cons_of_mem _ hx)
    have hhi : fromHexChar (hexDigit (b % 256 / 16)) = some (b % 256 / 16) :=
      fromHexChar_hexDigit _ (by omega)
    have hlo : fromHexChar (hexDigit (b % 16)) = some (b % 16) :=
      fromHexChar_hexDigit _ (by omega)
    have hval : (b % 256 / 16 * 16 + b % 16) % 256 = b := by omega
    simp only [hexEncodeToString, hexDecodeString, hhi, hlo, ih hrest, hval]

/-- The big-endian value of a slice extended by one byte. -/
theorem bigEndian_append_singleton (bytes : List Nat) (b : Nat) :
    bigEndian (bytes ++ [b]) = bigEndian bytes * 256 + b := by
  simp [bigEndian, List.foldl_append]

/-- The big-endian bytes of a number are read back as the number, modulo the width. -/
theorem bigEndian_beBytes (width : Nat) : ∀ n, bigEndian (beBytes width n) = n % 256 ^ width := by
  induction width with
  | zero => intro n; simp [beBytes, bigEndian, Nat.mod_one]
  | succ k ih =>
    intro n
    rw [beBytes, bigEndian_append_singleton, ih, pow_succ, Nat.mul_comm (256 ^ k) 256,
      Nat.mod_mul]
    ring

/-- The big-endian encoding on `width` bytes has `width` bytes. -/
theorem length_beBytes (width : Nat) : ∀ n, (beBytes width n).length = width := by
  induction width with
  | zero => intro n; rfl
  | succ k ih => intro n; simp [beBytes, ih]

/-- Every byte of a big-endian encoding is below 256. -/
theorem beBytes_lt (width : Nat) : ∀ n, ∀ b ∈ beBytes width n, b < 256 := by
  induction width with
  | zero => intro n b hb; simp [beBytes] at hb
  | succ k ih =>
    intro n b hb
    simp only [beBytes, List.mem_append, List.mem_singleton] at hb
    rcases hb with hb | hb
    · exact ih _ b hb
    · omega

/-- The decoder reads the reason back from its standard `Error(string)` payload. -/
theorem UnpackRevert_errorStringPayload (s : GoString) (hlen : s.length + 64 < 2 ^ 63) :
    UnpackRevert (errorStringPayload s) = .ok s := by
  have hsel : revertSelector.length = 4 := rfl
  have h32 : bigEndian (beBytes 32 32) = 32 := by rw [bigEndian_beBytes]; norm_num
  have hsz : bigEndian (beBytes 32 s.length) = s.length := by
    rw [bigEndian_beBytes]
    apply Nat.mod_eq_of_lt
    have : (2 : Nat) ^ 63 < 256 ^ 32 := by norm_num
    omega
  have hbody : abiEncodeString s = beBytes 32 32 ++ (beBytes 32 s.length ++
      (s ++ List.replicate ((32 - s.length % 32) % 32) 0)) := by
    simp [abiEncodeString, List.append_assoc]
  have hl1 : (beBytes 32 32).length = 32 := length_beBytes 32 32
  have hl2 : (beBytes 32 s.length).length = 32 := length_beBytes 32 s.length
  have hblen : (abiEncodeString s).length = 64 + s.length + (32 - s.length % 32) % 32 := by
    rw [hbody]
    simp only [List.length_append, hl1, hl2, List.length_replicate]
    omega
  have htake0 : (abiEncodeString s).take 32 = beBytes 32 32 := by
    rw [hbody]; exact List.take_left' hl1
  have hdrop32 : (abiEncodeString s).drop 32 = beBytes 32 s.length ++
      (s ++ List.replicate ((32 - s.length % 32) % 32) 0) := by
    rw [hbody]; exact List.drop_left' hl1
  have hdrop64 : (abiEncodeString s).drop 64 =
      s ++ List.replicate ((32 - s.length % 32) % 32) 0 := by
    have h : (abiEncodeString s).drop (32 + 32) = ((abiEncodeString s).drop 32).drop 32 := by
      rw [List.drop_drop]
    rw [show (64 : Nat) = 32 + 32 from rfl, h, hdrop32]
    exact List.drop_left' hl2
  have hlpp : lengthPrefixPointsTo 0 (abiEncodeString s) = .ok (64, s.length) := by
    unfold lengthPrefixPointsTo
    simp only [List.drop_zero, htake0, h32]
    have hA : ¬ (32 + 32 > (abiEncodeString s).length) := by rw [hblen]; omega
    have hB : ¬ (32 + 32 ≥ 2 ^ 63) := by norm_num
    have hlenword : ((abiEncodeString s).drop (32 + 32 - 32)).take 32 = beBytes 32 s.length := by
      rw [show 32 + 32 - 32 = 32 from rfl, hdrop32]; exact List.take_left' hl2
    simp only [hlenword, hsz]
    have hC : ¬ (32 + 32 + s.length ≥ 2 ^ 63) := by omega
    have hD : ¬ (32 + 32 + s.length > (abiEncodeString s).length) := by rw [hblen]; omega
    simp only [hA, hB, hC, hD, if_false]
  have hunpack : unpackString (abiEncodeString s) = .ok s := by
    unfold unpackString
    have hE : ¬ ((abiEncodeString s).length = 0) := by rw [hblen]; omega
    have hF : ¬ (32 > (abiEncodeString s).length) := by rw [hblen]; omega
    simp only [hE, hF, if_false, hlpp, hdrop64]
    rw [List.take_left' rfl]
  unfold UnpackRevert errorStringPayload
  have hG : ¬ ((revertSelector ++ abiEncodeString s).length < 4) := by
    simp only [List.length_append, hsel]; omega
  have hH : ¬ ((revertSelector ++ abiEncodeString s).take 4 ≠ revertSelector) := by
    rw [List.take_left' hsel]; simp
  simp only [hG, hH, if_false, List.drop_left' hsel, hunpack]

/-- Every byte of the `Error(string)` payload of a byte sequence is a byte. -/
theorem errorStringPayload_lt (s : GoString) (hs : ∀ b ∈ s, b < 256) :
    ∀ b ∈ errorStringPayload s, b < 256 := by
  intro b hb
  simp only [errorStringPayload, abiEncodeString, List.mem_append, List.mem_replicate] at hb
  rcases hb with hb | ((hb | hb) | hb) | hb
  · revert b; decide
  · exact beBytes_lt _ _ b hb
  · exact beBytes_lt _ _ b hb
  · exact hs b hb
  · omega

/-- C5: for every reason `s` (a byte sequence shorter than the `int64` bound), a reply whose error
begins with `Revert` and whose output is `0x` followed by the hex of the standard ABI
`Error(string)` payload of `s` is decoded to exactly `s`, and the loop body writes the record
`error = "Reverted"`, `revert_reason = s`. -/
theorem revert_reason_round_trip (client : GoString → Except String Result) (txHash : GoString)
    (resp : Result) (s : GoString)
    (hs : ∀ b ∈ s, b < 256) (hlen : s.length + 64 < 2 ^ 63)
    (hcall : client (replaceFirst 92 (lit "0") txHash) = .ok resp)
    (hrevert : hasPrefix resp.Error (lit "Revert") = true)
    (hout : resp.Output = lit "0x" ++ hexEncodeToString (errorStringPayload s)) :
    UnpackRevert (errorStringPayload s) = .ok s ∧
      processTx UnpackRevert client txHash =
        { events := [.unpackRevert (errorStringPayload s),
            .updateTx txHash [("error", lit "Reverted"), ("revert_reason", s)]],
          panicked := false } := by
  have hdec := UnpackRevert_errorStringPayload s hlen
  refine ⟨hdec, ?_⟩
  have hdrop : resp.Output.drop 2 = hexEncodeToString (errorStringPayload s) := by
    rw [hout]; rfl
  have hnot : ¬ resp.Output.length < 2 := by
    rw [hout]
    simp [lit]
  have hhex := hexDecodeString_hexEncodeToString (errorStringPayload s)
    (errorStringPayload_lt s hs)
  simp only [processTx, hcall, hnot, if_false, hdrop, hhex, hrevert, if_true, hdec]

/-- C5 for the reason `insufficient balance`. -/
theorem revert_reason_round_trip_witness :
    UnpackRevert (errorStringPayload (lit "insufficient balance"))
        = .ok (lit "insufficient balance") ∧
      processTx UnpackRevert
          (fun _ => .ok ⟨lit "Revert: insufficient balance",
            lit "0x" ++ hexEncodeToString (errorStringPayload (lit "insufficient balance"))⟩)
          (lit "\\x01") =
        { events := [.unpackRevert (errorStringPayload (lit "insufficient balance")),
            .updateTx (lit "\\x01")
              [("error", lit "Reverted"), ("revert_reason", lit "insufficient balance")]],
          panicked := false } :=
  revert_reason_round_trip
    (fun _ => .ok ⟨lit "Revert: insufficient balance",
      lit "0x" ++ hexEncodeToString (errorStringPayload (lit "insufficient balance"))⟩)
    (lit "\\x01")
    ⟨lit "Revert: insufficient balance",
      lit "0x" ++ hexEncodeToString (errorStringPayload (lit "insufficient balance"))⟩
    (lit "insufficient balance") (by decide) (by decide) rfl (by decide) rfl

/-- Reading a slice as a big-endian number from a starting value. -/
theorem foldl_bigEndian (bytes : List Nat) : ∀ acc,
    bytes.foldl (fun acc b => acc * 256 + b) acc = acc * 256 ^ bytes.length + wordValue bytes := by
  induction bytes with
  | nil => intro acc; simp [wordValue]
  | cons b rest ih =>
    intro acc
    rw [List.foldl_cons, ih, wordValue, List.length_cons, pow_succ]
    ring

/-- The value `SetBytes` computes is the number the word stands for. -/
theorem bigEndian_eq_wordValue (bytes : List Nat) : bigEndian bytes = wordValue bytes := by
  rw [bigEndian, foldl_bigEndian]
  simp

/-- The length of a standard `Error(string)` payload is 4 more than a multiple of 32, and
at least 68: the selector, the offset word and the length word. -/
theorem length_errorStringPayload (s : GoString) :
    (errorStringPayload s).length % 32 = 4 ∧ 68 ≤ (errorStringPayload s).length := by
  have hsel : revertSelector.length = 4 := rfl
  simp only [errorStringPayload, abiEncodeString, List.length_append, hsel, length_beBytes,
    List.length_replicate]
  omega

/-- The decoder fails, and does not crash, on every payload that cannot hold an `Error(string)`
layout. -/
theorem UnpackRevert_truncated (data : List Nat) (hbad : truncatedPayload data = true) :
    ∃ e, UnpackRevert data = .error e := by
  unfold UnpackRevert
  by_cases h1 : data.length < 4
  · rw [if_pos h1]; exact ⟨_, rfl⟩
  rw [if_neg h1]
  by_cases h2 : data.take 4 ≠ revertSelector
  · rw [if_pos h2]; exact ⟨_, rfl⟩
  rw [if_neg h2]
  unfold unpackString
  by_cases h3 : (data.drop 4).length = 0
  · rw [if_pos h3]; exact ⟨_, rfl⟩
  rw [if_neg h3]
  by_cases h4 : 32 > (data.drop 4).length
  · rw [if_pos h4]; exact ⟨_, rfl⟩
  rw [if_neg h4]
  have hbad' : (data.drop 4).length < bigEndian ((data.drop 4).take 32) + 32 ∨
      (data.drop 4).length < bigEndian ((data.drop 4).take 32) + 32 +
        bigEndian (((data.drop 4).drop (bigEndian ((data.drop 4).take 32))).take 32) := by
    simp only [truncatedPayload, Bool.or_eq_true, decide_eq_true_eq,
      ← bigEndian_eq_wordValue] at hbad
    rcases hbad with (((hb | hb) | hb) | hb) | hb
    · exact absurd hb h1
    · exact absurd hb h2
    · exact absurd hb (by omega)
    · exact Or.inl hb
    · exact Or.inr hb
  unfold lengthPrefixPointsTo
  simp only [List.drop_zero, Nat.add_sub_cancel]
  by_cases h5 : bigEndian ((data.drop 4).take 32) + 32 > (data.drop 4).length
  · rw [if_pos h5]; exact ⟨_, rfl⟩
  rw [if_neg h5]
  by_cases h6 : bigEndian ((data.drop 4).take 32) + 32 ≥ 2 ^ 63
  · rw [if_pos h6]; exact ⟨_, rfl⟩
  rw [if_neg h6]
  by_cases h7 : bigEndian ((data.drop 4).take 32) + 32 +
      bigEndian (((data.drop 4).drop (bigEndian ((data.drop 4).take 32))).take 32) ≥ 2 ^ 63
  · rw [if_pos h7]; exact ⟨_, rfl⟩
  rw [if_neg h7]
  have h8 : bigEndian ((data.drop 4).take 32) + 32 +
      bigEndian (((data.drop 4).drop (bigEndian ((data.drop 4).take 32))).take 32)
        > (data.drop 4).length := by
    rcases hbad' with hb | hb
    · exact absurd hb h5
    · exact hb
  rw [if_pos h8]; exact ⟨_, rfl⟩

/-- The decoder accepts every payload, shorter than the `int64` bound, that can hold an
`Error(string)` layout, standard encoding or not: the reason is the announced number of bytes
after the length word. -/
theorem UnpackRevert_of_layout_fits (data : List Nat) (hfits : truncatedPayload data = false)
    (hlen : data.length < 2 ^ 63) :
    UnpackRevert data = .ok (((data.drop 4).drop (wordValue ((data.drop 4).take 32) + 32)).take
      (wordValue (((data.drop 4).drop (wordValue ((data.drop 4).take 32))).take 32))) := by
  simp only [truncatedPayload, Bool.or_eq_false_iff, decide_eq_false_iff_not,
    ← bigEndian_eq_wordValue] at hfits
  obtain ⟨⟨⟨⟨h1, h2⟩, h3⟩, h4⟩, h5⟩ := hfits
  have hbody : (data.drop 4).length ≤ data.length := by
    rw [List.length_drop]; omega
  have g3 : ¬ ((data.drop 4).length = 0) := by omega
  have g4 : ¬ (32 > (data.drop 4).length) := by omega
  have g5 : ¬ (bigEndian ((data.drop 4).take 32) + 32 > (data.drop 4).length) := by omega
  have g6 : ¬ (bigEndian ((data.drop 4).take 32) + 32 ≥ 2 ^ 63) := by omega
  have g7 : ¬ (bigEndian ((data.drop 4).take 32) + 32 +
      bigEndian (((data.drop 4).drop (bigEndian ((data.drop 4).take 32))).take 32) ≥ 2 ^ 63) := by
    omega
  have g8 : ¬ (bigEndian ((data.drop 4).take 32) + 32 +
      bigEndian (((data.drop 4).drop (bigEndian ((data.drop 4).take 32))).take 32)
        > (data.drop 4).length) := by omega
  unfold UnpackRevert
  rw [if_neg h1, if_neg h2]
  unfold unpackString
  rw [if_neg g3, if_neg g4]
  unfold lengthPrefixPointsTo
  simp only [List.drop_zero, Nat.add_sub_cancel]
  rw [if_neg g5, if_neg g6, if_neg g7, if_neg g8]
  simp only [← bigEndian_eq_wordValue]

/-- C6, as stated, fails: the `Error(string)` payload of `abc` with its padding cut (71 bytes)
and the selector followed by one zero word are not the standard payload of any reason, yet the
decoder accepts them, and for a reply whose error begins with `Revert` and whose output is
`0x` and their hex, the record written has the revert reason `abc`, or the empty one, not
`Unknown`. -/
theorem nonstandard_payload_is_decoded_example :
    (∀ s, errorStringPayload s ≠ (errorStringPayload (lit "abc")).take 71) ∧
      (∀ s, errorStringPayload s ≠ revertSelector ++ beBytes 32 0) ∧
      UnpackRevert ((errorStringPayload (lit "abc")).take 71) = .ok (lit "abc") ∧
      recordsWritten (processTx UnpackRevert
          (fun _ => .ok ⟨lit "Reverted",
            lit "0x" ++ hexEncodeToString ((errorStringPayload (lit "abc")).take 71)⟩)
          (lit "\\x01"))
        = [[("error", lit "Reverted"), ("revert_reason", lit "abc")]] ∧
      recordsWritten (processTx UnpackRevert
          (fun _ => .ok ⟨lit "Reverted",
            lit "0x" ++ hexEncodeToString ((errorStringPayload (lit "abc")).take 71)⟩)
          (lit "\\x01"))
        ≠ [[("error", lit "Reverted"), ("revert_reason", lit "Unknown")]] ∧
      recordsWritten (processTx UnpackRevert
          (fun _ => .ok ⟨lit "Reverted",
            lit "0x" ++ hexEncodeToString (revertSelector ++ beBytes 32 0)⟩)
          (lit "\\x01"))
        = [[("error", lit "Reverted"), ("revert_reason", lit "")]] := by
  refine ⟨?_, ?_, by decide, by decide, by decide, by decide⟩
  · intro s h
    have hl := congrArg List.length h
    have hm := (length_errorStringPayload s).1
    have h71 : ((errorStringPayload (lit "abc")).take 71).length = 71 := by decide
    rw [hl, h71] at hm
    exact absurd hm (by decide)
  · intro s h
    have hl := congrArg List.length h
    have hm := (length_errorStringPayload s).2
    have h36 : (revertSelector ++ beBytes 32 0).length = 36 := by decide
    rw [hl, h36] at hm
    exact absurd hm (by decide)

/-- C6, amended: for every reply whose error begins with `Revert` and whose output begins with
`0x` and hex-decodes to a payload that cannot hold an `Error(string)` layout (empty, shorter than
4 bytes, another selector, or a length-prefixed string truncated so that the offset word, the
length word or the announced bytes do not fit), the decoder reports a failure and the loop body,
without a panic, writes exactly the record `error = "Reverted"`, `revert_reason = "Unknown"`. -/
theorem truncated_revert_is_unknown (client : GoString → Except String Result)
    (txHash : GoString) (resp : Result) (data : List Nat)
    (hcall : client (replaceFirst 92 (lit "0") txHash) = .ok resp)
    (hrevert : hasPrefix resp.Error (lit "Revert") = true)
    (hzerox : hasPrefix resp.Output (lit "0x") = true)
    (hhex : hexDecodeString (resp.Output.drop 2) = .ok data)
    (hbad : truncatedPayload data = true) :
    (∃ e, UnpackRevert data = .error e) ∧
      processTx UnpackRevert client txHash =
        { events := [.unpackRevert data,
            .updateTx txHash [("error", lit "Reverted"), ("revert_reason", lit "Unknown")]],
          panicked := false } := by
  obtain ⟨e, he⟩ := UnpackRevert_truncated data hbad
  refine ⟨⟨e, he⟩, ?_⟩
  have hnot : ¬ resp.Output.length < 2 := by
    intro hshort
    match hout : resp.Output, hshort with
    | [], _ => rw [hout] at hzerox; exact absurd hzerox (by decide)
    | [b], _ => rw [hout] at hzerox; simp [hasPrefix, lit, List.isPrefixOf] at hzerox
  simp only [processTx, hcall, hnot, if_false, hhex, hrevert, if_true, he]

/-- C6, amended, for the empty payload (output `0x`), for the payload of another selector
(`Panic(uint256)`, `4e487b71`, with its word), and for the payload of `abc` cut to 69 bytes, where
three bytes are announced and one is there. -/
theorem truncated_revert_is_unknown_witness :
    ((∃ e, UnpackRevert [] = .error e) ∧
      processTx UnpackRevert (fun _ => .ok ⟨lit "Reverted", lit "0x"⟩) (lit "\\x01") =
        { events := [.unpackRevert [],
            .updateTx (lit "\\x01") [("error", lit "Reverted"), ("revert_reason", lit "Unknown")]],
          panicked := false }) ∧
      ((∃ e, UnpackRevert ([0x4e, 0x48, 0x7b, 0x71] ++ beBytes 32 17) = .error e) ∧
        processTx UnpackRevert
            (fun _ => .ok ⟨lit "Reverted",
              lit "0x" ++ hexEncodeToString ([0x4e, 0x48, 0x7b, 0x71] ++ beBytes 32 17)⟩)
            (lit "\\x01") =
          { events := [.unpackRevert ([0x4e, 0x48, 0x7b, 0x71] ++ beBytes 32 17),
              .updateTx (lit "\\x01")
                [("error", lit "Reverted"), ("revert_reason", lit "Unknown")]],
            panicked := false }) ∧
      ((∃ e, UnpackRevert ((errorStringPayload (lit "abc")).take 69) = .error e) ∧
        processTx UnpackRevert
            (fun _ => .ok ⟨lit "Reverted",
              lit "0x" ++ hexEncodeToString ((errorStringPayload (lit "abc")).take 69)⟩)
            (lit "\\x01") =
          { events := [.unpackRevert ((errorStringPayload (lit "abc")).take 69),
              .updateTx (lit "\\x01")
                [("error", lit "Reverted"), ("revert_reason", lit "Unknown")]],
            panicked := false }) :=
  ⟨truncated_revert_is_unknown (fun _ => .ok ⟨lit "Reverted", lit "0x"⟩) (lit "\\x01")
      ⟨lit "Reverted", lit "0x"⟩ [] rfl (by decide) (by decide) (by decide) (by decide),
    truncated_revert_is_unknown
      (fun _ => .ok ⟨lit "Reverted",
        lit "0x" ++ hexEncodeToString ([0x4e, 0x48, 0x7b, 0x71] ++ beBytes 32 17)⟩)
      (lit "\\x01")
      ⟨lit "Reverted", lit "0x" ++ hexEncodeToString ([0x4e, 0x48, 0x7b, 0x71] ++ beBytes 32 17)⟩
      ([0x4e, 0x48, 0x7b, 0x71] ++ beBytes 32 17) rfl (by decide) (by decide) (by decide)
      (by decide),
    truncated_revert_is_unknown
      (fun _ => .ok ⟨lit "Reverted",
        lit "0x" ++ hexEncodeToString ((errorStringPayload (lit "abc")).take 69)⟩)
      (lit "\\x01")
      ⟨lit "Reverted", lit "0x" ++ hexEncodeToString ((errorStringPayload (lit "abc")).take 69)⟩
      ((errorStringPayload (lit "abc")).take 69) rfl (by decide) (by decide) (by decide)
      (by decide)⟩

end ErrorIndexer
